import Mathlib

/-!
Verification of the two-up page-composition geometry of
`src/app.py` (repository `6oz-Jar-Labels-Duplicate-Rotate`).

Page geometry is carried in typographic points.  The Python source uses
floats; the spec requires the arithmetic identities to hold exactly, so
the embedding uses exact rationals `ℚ`, with the literal `25.4`
interpreted exactly as `254/10`.
-/

namespace TwoUp

/-- `MM_TO_PT = 72.0 / 25.4` (src/app.py line 7): points per millimeter. -/
def MM_TO_PT : ℚ := 72 / 25.4

/-- `DEFAULT_GAP_MM = 3.0` (src/app.py line 8). -/
def DEFAULT_GAP_MM : ℚ := 3

/-- A page size in points: `sw, sh = src_page.rect.width, src_page.rect.height`
(src/app.py line 78).  The spec calls this `PointRect`. -/
structure PointSize where
  width : ℚ
  height : ℚ
deriving DecidableEq, Repr

/-- A `fitz.Rect(x0, y0, x1, y1)` destination rectangle (src/app.py
lines 93 and 95). -/
structure Rect where
  x0 : ℚ
  y0 : ℚ
  x1 : ℚ
  y1 : ℚ
deriving DecidableEq, Repr

/-- A point of the plane lies in a (closed) rectangle. -/
def Rect.mem (r : Rect) (p : ℚ × ℚ) : Prop :=
  r.x0 ≤ p.1 ∧ p.1 ≤ r.x1 ∧ r.y0 ≤ p.2 ∧ p.2 ≤ r.y1

instance instDecRectMem (r : Rect) (p : ℚ × ℚ) : Decidable (r.mem p) := by
  unfold Rect.mem; infer_instance

/-- `gap_pt = gap_mm * MM_TO_PT` (src/app.py line 73); the spec calls this
`mmToPoints`. -/
def mmToPoints (mm : ℚ) : ℚ := mm * MM_TO_PT

/-- `rot_w, rot_h = sh, sw` (src/app.py line 81): after a 90° CCW rotation
the visual width is the source height and vice versa.  The spec calls
this `rotatedDimensions`. -/
def rotatedDimensions (size : PointSize) : PointSize :=
  { width := size.height, height := size.width }

/-- The per-page geometry computed inside the loop of
`process_document_to_two_up`: the output page size and the two
destination rectangles. -/
structure Placement where
  outW : ℚ
  outH : ℚ
  leftRect : Rect
  rightRect : Rect
deriving DecidableEq, Repr

/-- Lines 78–95 of src/app.py for one source page, with the gap already
converted to points (as in the source, where `gap_pt` is computed once
before the loop):

    rot_w, rot_h = sh, sw
    out_w = (rot_w * 2.0) + gap_pt
    out_h = rot_h
    left_rect = fitz.Rect(0, 0, rot_w, rot_h)
    right_rect = fitz.Rect(rot_w + gap_pt, (rot_w * 2.0) + gap_pt, rot_h)
-/
def twoUpPlacement (size : PointSize) (gap_pt : ℚ) : Placement :=
  let sw := size.width
  let sh := size.height
  let rot_w := sh
  let rot_h := sw
  let out_w := rot_w * 2 + gap_pt
  let out_h := rot_h
  { outW := out_w
    outH := out_h
    leftRect := ⟨0, 0, rot_w, rot_h⟩
    rightRect := ⟨rot_w + gap_pt, 0, rot_w * 2 + gap_pt, rot_h⟩ }

/-- One `show_pdf_page(target, src_doc, pno, rotate=90)` call
(src/app.py lines 100–101): a transclusion of source page `srcIndex`
into `target`, rotated by `rotate` degrees CCW. -/
structure Draw where
  target : Rect
  srcIndex : ℕ
  rotate : ℤ
deriving DecidableEq, Repr

/-- One output page: `out_doc.new_page(width=out_w, height=out_h)` followed
by the two `show_pdf_page` calls (src/app.py lines 89, 100–101). -/
structure OutPage where
  width : ℚ
  height : ℚ
  draws : List Draw
deriving DecidableEq, Repr

/-- The body of the loop of `process_document_to_two_up` for page number
`pno`: the output page it appends to `out_doc`. -/
def twoUpOutPage (pno : ℕ) (size : PointSize) (gap_pt : ℚ) : OutPage :=
  let p := twoUpPlacement size gap_pt
  { width := p.outW
    height := p.outH
    draws := [⟨p.leftRect, pno, 90⟩, ⟨p.rightRect, pno, 90⟩] }

/-- `process_document_to_two_up(src_doc, gap_mm)` (src/app.py lines 64–106):
`gap_pt` is computed once, then `for pno in range(len(src_doc))` appends
one output page per source page, in order.  The source document is
abstracted to its ordered list of page sizes (the content handles are
opaque to the geometry). -/
def process_document_to_two_up (src_pages : List PointSize) (gap_mm : ℚ) :
    List OutPage :=
  let gap_pt := gap_mm * MM_TO_PT
  List.ofFn (fun pno : Fin src_pages.length =>
    twoUpOutPage pno (src_pages.get pno) gap_pt)

/-- The same document loop with the gap already in points; used to state
that the mm→pt conversion happens exactly once, at gap ingestion. -/
def processPt (src_pages : List PointSize) (gap_pt : ℚ) : List OutPage :=
  List.ofFn (fun pno : Fin src_pages.length =>
    twoUpOutPage pno (src_pages.get pno) gap_pt)

/-- C1: for every source page of size `(w, h)` in points and every gap
`gapMm ≥ 0`, the two-up layout computes rotated dimensions `(h, w)`,
`gapPt = gapMm * 72 / 25.4`, output page size `2*rotW + gapPt` by `rotH`,
`leftRect = (0, 0, rotW, rotH)` and
`rightRect = (rotW + gapPt, 0, 2*rotW + gapPt, rotH)`. -/
theorem two_up_layout_formulas (w h gap_mm : ℚ) (hg : 0 ≤ gap_mm) :
    rotatedDimensions ⟨w, h⟩ = ⟨h, w⟩ ∧
    mmToPoints gap_mm = gap_mm * 72 / 25.4 ∧
    (twoUpPlacement ⟨w, h⟩ (mmToPoints gap_mm)).outW = 2 * h + mmToPoints gap_mm ∧
    (twoUpPlacement ⟨w, h⟩ (mmToPoints gap_mm)).outH = w ∧
    (twoUpPlacement ⟨w, h⟩ (mmToPoints gap_mm)).leftRect = ⟨0, 0, h, w⟩ ∧
    (twoUpPlacement ⟨w, h⟩ (mmToPoints gap_mm)).rightRect =
      ⟨h + mmToPoints gap_mm, 0, 2 * h + mmToPoints gap_mm, w⟩ := by
  refine ⟨rfl, ?_, ?_, rfl, rfl, ?_⟩
  · unfold mmToPoints MM_TO_PT; ring
  · show h * 2 + mmToPoints gap_mm = 2 * h + mmToPoints gap_mm; ring
  · show Rect.mk (h + mmToPoints gap_mm) 0 (h * 2 + mmToPoints gap_mm) w = _
    simp only [Rect.mk.injEq]
    repeat' apply And.intro
    all_goals first | trivial | ring

theorem two_up_layout_formulas_witness :
    rotatedDimensions ⟨(210 : ℚ), 297⟩ = ⟨297, 210⟩ ∧
    mmToPoints 3 = 3 * 72 / 25.4 ∧
    (twoUpPlacement ⟨(210 : ℚ), 297⟩ (mmToPoints 3)).outW = 2 * 297 + mmToPoints 3 ∧
    (twoUpPlacement ⟨(210 : ℚ), 297⟩ (mmToPoints 3)).outH = 210 ∧
    (twoUpPlacement ⟨(210 : ℚ), 297⟩ (mmToPoints 3)).leftRect = ⟨0, 0, 297, 210⟩ ∧
    (twoUpPlacement ⟨(210 : ℚ), 297⟩ (mmToPoints 3)).rightRect =
      ⟨297 + mmToPoints 3, 0, 2 * 297 + mmToPoints 3, 210⟩ :=
  two_up_layout_formulas 210 297 3 (by norm_num)

/-- C2: for every source page size and every `gapMm ≥ 0`, the two placement
rectangles have identical width (`rotated.width`) and height
(`rotated.height`), the horizontal gap `rightRect.x0 - leftRect.x1` is
exactly `gapPt`, and the output page is exactly tiled with zero margin:
`outputWidth = rightRect.x1`, `outputHeight = leftRect.y1 = rightRect.y1`,
`leftRect.x0 = 0` and both `y0 = 0`. -/
theorem two_up_exact_tiling (w h gap_mm : ℚ) (hg : 0 ≤ gap_mm) :
    (twoUpPlacement ⟨w, h⟩ (mmToPoints gap_mm)).leftRect.x1 -
        (twoUpPlacement ⟨w, h⟩ (mmToPoints gap_mm)).leftRect.x0 =
      (rotatedDimensions ⟨w, h⟩).width ∧
    (twoUpPlacement ⟨w, h⟩ (mmToPoints gap_mm)).rightRect.x1 -
        (twoUpPlacement ⟨w, h⟩ (mmToPoints gap_mm)).rightRect.x0 =
      (rotatedDimensions ⟨w, h⟩).width ∧
    (twoUpPlacement ⟨w, h⟩ (mmToPoints gap_mm)).leftRect.y1 -
        (twoUpPlacement ⟨w, h⟩ (mmToPoints gap_mm)).leftRect.y0 =
      (rotatedDimensions ⟨w, h⟩).height ∧
    (twoUpPlacement ⟨w, h⟩ (mmToPoints gap_mm)).rightRect.y1 -
        (twoUpPlacement ⟨w, h⟩ (mmToPoints gap_mm)).rightRect.y0 =
      (rotatedDimensions ⟨w, h⟩).height ∧
    (twoUpPlacement ⟨w, h⟩ (mmToPoints gap_mm)).rightRect.x0 -
        (twoUpPlacement ⟨w, h⟩ (mmToPoints gap_mm)).leftRect.x1 =
      mmToPoints gap_mm ∧
    (twoUpPlacement ⟨w, h⟩ (mmToPoints gap_mm)).outW =
      (twoUpPlacement ⟨w, h⟩ (mmToPoints gap_mm)).rightRect.x1 ∧
    (twoUpPlacement ⟨w, h⟩ (mmToPoints gap_mm)).outH =
      (twoUpPlacement ⟨w, h⟩ (mmToPoints gap_mm)).leftRect.y1 ∧
    (twoUpPlacement ⟨w, h⟩ (mmToPoints gap_mm)).outH =
      (twoUpPlacement ⟨w, h⟩ (mmToPoints gap_mm)).rightRect.y1 ∧
    (twoUpPlacement ⟨w, h⟩ (mmToPoints gap_mm)).leftRect.x0 = 0 ∧
    (twoUpPlacement ⟨w, h⟩ (mmToPoints gap_mm)).leftRect.y0 = 0 ∧
    (twoUpPlacement ⟨w, h⟩ (mmToPoints gap_mm)).rightRect.y0 = 0 := by
  unfold twoUpPlacement rotatedDimensions
  repeat' apply And.intro
  all_goals first | trivial | ring

theorem two_up_exact_tiling_witness :
    (twoUpPlacement ⟨(100 : ℚ), 100⟩ (mmToPoints 3)).leftRect.x1 -
        (twoUpPlacement ⟨(100 : ℚ), 100⟩ (mmToPoints 3)).leftRect.x0 =
      (rotatedDimensions ⟨(100 : ℚ), 100⟩).width ∧
    (twoUpPlacement ⟨(100 : ℚ), 100⟩ (mmToPoints 3)).rightRect.x1 -
        (twoUpPlacement ⟨(100 : ℚ), 100⟩ (mmToPoints 3)).rightRect.x0 =
      (rotatedDimensions ⟨(100 : ℚ), 100⟩).width ∧
    (twoUpPlacement ⟨(100 : ℚ), 100⟩ (mmToPoints 3)).leftRect.y1 -
        (twoUpPlacement ⟨(100 : ℚ), 100⟩ (mmToPoints 3)).leftRect.y0 =
      (rotatedDimensions ⟨(100 : ℚ), 100⟩).height ∧
    (twoUpPlacement ⟨(100 : ℚ), 100⟩ (mmToPoints 3)).rightRect.y1 -
        (twoUpPlacement ⟨(100 : ℚ), 100⟩ (mmToPoints 3)).rightRect.y0 =
      (rotatedDimensions ⟨(100 : ℚ), 100⟩).height ∧
    (twoUpPlacement ⟨(100 : ℚ), 100⟩ (mmToPoints 3)).rightRect.x0 -
        (twoUpPlacement ⟨(100 : ℚ), 100⟩ (mmToPoints 3)).leftRect.x1 =
      mmToPoints 3 ∧
    (twoUpPlacement ⟨(100 : ℚ), 100⟩ (mmToPoints 3)).outW =
      (twoUpPlacement ⟨(100 : ℚ), 100⟩ (mmToPoints 3)).rightRect.x1 ∧
    (twoUpPlacement ⟨(100 : ℚ), 100⟩ (mmToPoints 3)).outH =
      (twoUpPlacement ⟨(100 : ℚ), 100⟩ (mmToPoints 3)).leftRect.y1 ∧
    (twoUpPlacement ⟨(100 : ℚ), 100⟩ (mmToPoints 3)).outH =
      (twoUpPlacement ⟨(100 : ℚ), 100⟩ (mmToPoints 3)).rightRect.y1 ∧
    (twoUpPlacement ⟨(100 : ℚ), 100⟩ (mmToPoints 3)).leftRect.x0 = 0 ∧
    (twoUpPlacement ⟨(100 : ℚ), 100⟩ (mmToPoints 3)).leftRect.y0 = 0 ∧
    (twoUpPlacement ⟨(100 : ℚ), 100⟩ (mmToPoints 3)).rightRect.y0 = 0 :=
  two_up_exact_tiling 100 100 3 (by norm_num)

/-- C3: with positive rotated dimensions, when `gapPt > 0` the two placement
rectangles are disjoint; when `gapPt = 0` they share exactly the boundary
line `x = leftRect.x1` (so the overlap has zero area: every common point
lies on that vertical line); and the concrete case `100×100` pt with
`gapMm = 0` yields `leftRect = (0,0,100,100)`, `rightRect = (100,0,200,100)`. -/
theorem two_up_no_overlap (w h gap_pt : ℚ) (hw : 0 < w) (hh : 0 < h) :
    (0 < gap_pt → ∀ p : ℚ × ℚ,
      ¬((twoUpPlacement ⟨w, h⟩ gap_pt).leftRect.mem p ∧
        (twoUpPlacement ⟨w, h⟩ gap_pt).rightRect.mem p)) ∧
    (gap_pt = 0 →
      (twoUpPlacement ⟨w, h⟩ gap_pt).leftRect.x1 =
        (twoUpPlacement ⟨w, h⟩ gap_pt).rightRect.x0 ∧
      ((twoUpPlacement ⟨w, h⟩ gap_pt).leftRect.mem (h, 0) ∧
        (twoUpPlacement ⟨w, h⟩ gap_pt).rightRect.mem (h, 0)) ∧
      ∀ p : ℚ × ℚ,
        (twoUpPlacement ⟨w, h⟩ gap_pt).leftRect.mem p →
        (twoUpPlacement ⟨w, h⟩ gap_pt).rightRect.mem p →
        p.1 = (twoUpPlacement ⟨w, h⟩ gap_pt).leftRect.x1) ∧
    twoUpPlacement ⟨100, 100⟩ (mmToPoints 0) =
      ⟨200, 100, ⟨0, 0, 100, 100⟩, ⟨100, 0, 200, 100⟩⟩ := by
  unfold twoUpPlacement Rect.mem
  refine ⟨?_, ?_, ?_⟩
  case refine_3 =>
    simp only [Placement.mk.injEq, Rect.mk.injEq, mmToPoints, MM_TO_PT]
    norm_num
  · rintro hgap p ⟨⟨_, hp1, _, _⟩, ⟨hp2, _, _, _⟩⟩
    simp only at hp1 hp2
    linarith
  · rintro rfl
    refine ⟨by ring, ⟨?_, ?_⟩, ?_⟩
    · repeat' apply And.intro
      all_goals simp only; linarith
    · repeat' apply And.intro
      all_goals simp only; linarith
    · rintro p ⟨_, hp1, _, _⟩ ⟨hp2, _, _, _⟩
      simp only at hp1 hp2 ⊢
      linarith

theorem two_up_no_overlap_witness :
    (0 < (5 : ℚ) → ∀ p : ℚ × ℚ,
      ¬((twoUpPlacement ⟨100, 100⟩ 5).leftRect.mem p ∧
        (twoUpPlacement ⟨100, 100⟩ 5).rightRect.mem p)) ∧
    ((5 : ℚ) = 0 →
      (twoUpPlacement ⟨(100 : ℚ), 100⟩ 5).leftRect.x1 =
        (twoUpPlacement ⟨(100 : ℚ), 100⟩ 5).rightRect.x0 ∧
      ((twoUpPlacement ⟨(100 : ℚ), 100⟩ 5).leftRect.mem (100, 0) ∧
        (twoUpPlacement ⟨(100 : ℚ), 100⟩ 5).rightRect.mem (100, 0)) ∧
      ∀ p : ℚ × ℚ,
        (twoUpPlacement ⟨(100 : ℚ), 100⟩ 5).leftRect.mem p →
        (twoUpPlacement ⟨(100 : ℚ), 100⟩ 5).rightRect.mem p →
        p.1 = (twoUpPlacement ⟨(100 : ℚ), 100⟩ 5).leftRect.x1) ∧
    twoUpPlacement ⟨100, 100⟩ (mmToPoints 0) =
      ⟨200, 100, ⟨0, 0, 100, 100⟩, ⟨100, 0, 200, 100⟩⟩ :=
  two_up_no_overlap 100 100 5 (by norm_num) (by norm_num)

/-- C4: `rotatedDimensions` swaps width and height, is an involution, and
fixes square pages. -/
theorem rotated_dimensions_swap (s : PointSize) :
    rotatedDimensions s = ⟨s.height, s.width⟩ ∧
    rotatedDimensions (rotatedDimensions s) = s ∧
    (s.width = s.height → rotatedDimensions s = s) := by
  refine ⟨rfl, rfl, fun hsq => ?_⟩
  cases s
  simp_all [rotatedDimensions]

theorem rotated_dimensions_swap_witness :
    rotatedDimensions ⟨(5 : ℚ), 5⟩ = ⟨5, 5⟩ :=
  (rotated_dimensions_swap ⟨5, 5⟩).2.2 rfl

/-- Shared helper: the output document indexes pointwise into the source. -/
theorem process_document_getElem (pages : List PointSize) (gap_mm : ℚ) (i : ℕ) :
    (process_document_to_two_up pages gap_mm)[i]? =
      (pages[i]?).map fun size => twoUpOutPage i size (mmToPoints gap_mm) := by
  unfold process_document_to_two_up
  rw [List.getElem?_ofFn]
  by_cases hi : i < pages.length
  · simp [List.ofFnNthVal, hi, List.getElem?_eq_getElem, mmToPoints]
  · simp [List.ofFnNthVal, hi, List.getElem?_eq_none (Nat.le_of_not_lt hi)]

/-- Shared helper: one output page per source page. -/
theorem process_document_length (pages : List PointSize) (gap_mm : ℚ) :
    (process_document_to_two_up pages gap_mm).length = pages.length := by
  unfold process_document_to_two_up
  exact List.length_ofFn _

/-- C5 counterexample: for the degenerate source size `(0,0)` with
`gapMm = 1 > 0`, the left and right rectangles are NOT equal (the left one
is the point `(0,0)`, the right one the point `(gapPt, 0)` with
`gapPt = 72/25.4 ≠ 0`). -/
theorem degenerate_rects_differ :
    (twoUpPlacement ⟨0, 0⟩ (mmToPoints 1)).leftRect ≠
      (twoUpPlacement ⟨0, 0⟩ (mmToPoints 1)).rightRect := by
  unfold twoUpPlacement mmToPoints MM_TO_PT
  simp only [ne_eq, Rect.mk.injEq]
  norm_num

/-- C5 (amended): for the degenerate source size `(0,0)` and any
`gapMm ≥ 0`, the kernel is total and yields `outputWidth = mmToPoints gapMm`,
`outputHeight = 0`, and left and right rectangles each collapsed to a
point — `leftRect = (0,0,0,0)` and `rightRect = (gapPt,0,gapPt,0)`; the two
rectangles coincide exactly when `gapPt = 0`. -/
theorem degenerate_page_total (gap_mm : ℚ) (hg : 0 ≤ gap_mm) :
    (twoUpPlacement ⟨0, 0⟩ (mmToPoints gap_mm)).outW = mmToPoints gap_mm ∧
    (twoUpPlacement ⟨0, 0⟩ (mmToPoints gap_mm)).outH = 0 ∧
    (twoUpPlacement ⟨0, 0⟩ (mmToPoints gap_mm)).leftRect = ⟨0, 0, 0, 0⟩ ∧
    (twoUpPlacement ⟨0, 0⟩ (mmToPoints gap_mm)).rightRect =
      ⟨mmToPoints gap_mm, 0, mmToPoints gap_mm, 0⟩ ∧
    ((twoUpPlacement ⟨0, 0⟩ (mmToPoints gap_mm)).leftRect =
        (twoUpPlacement ⟨0, 0⟩ (mmToPoints gap_mm)).rightRect ↔
      mmToPoints gap_mm = 0) := by
  unfold twoUpPlacement
  refine ⟨by ring, rfl, rfl, ?_, ?_⟩
  · simp only [Rect.mk.injEq]
    repeat' apply And.intro
    all_goals first | trivial | ring
  · simp only [Rect.mk.injEq]
    constructor
    · intro hh
      have h1 : (0 : ℚ) = 0 + mmToPoints gap_mm := hh.1
      linarith
    · intro hh
      rw [hh]
      norm_num

theorem degenerate_page_total_witness :
    (twoUpPlacement ⟨0, 0⟩ (mmToPoints 3)).outW = mmToPoints 3 ∧
    (twoUpPlacement ⟨0, 0⟩ (mmToPoints 3)).outH = 0 ∧
    (twoUpPlacement ⟨0, 0⟩ (mmToPoints 3)).leftRect = ⟨0, 0, 0, 0⟩ ∧
    (twoUpPlacement ⟨0, 0⟩ (mmToPoints 3)).rightRect =
      ⟨mmToPoints 3, 0, mmToPoints 3, 0⟩ ∧
    ((twoUpPlacement ⟨0, 0⟩ (mmToPoints 3)).leftRect =
        (twoUpPlacement ⟨0, 0⟩ (mmToPoints 3)).rightRect ↔
      mmToPoints 3 = 0) :=
  degenerate_page_total 3 (by norm_num)

/-- C6: for every source document and gap, there is exactly one output page
per source page, in source order, and the `i`-th output page is a function
of the `i`-th source page size and the gap alone. -/
theorem process_one_page_per_source (pages : List PointSize) (gap_mm : ℚ) :
    (process_document_to_two_up pages gap_mm).length = pages.length ∧
    ∀ i : ℕ, (process_document_to_two_up pages gap_mm)[i]? =
      (pages[i]?).map fun size => twoUpOutPage i size (mmToPoints gap_mm) :=
  ⟨process_document_length pages gap_mm, process_document_getElem pages gap_mm⟩

/-- C7: the mm→pt conversion is the pure function `mm * 72 / 25.4`, maps 0
to 0, is strictly monotone, and is applied exactly once, at gap ingestion:
the document pipeline factors through `processPt`, which works purely in
points. -/
theorem mm_to_points_contract (mm a b : ℚ) (pages : List PointSize)
    (gap_mm : ℚ) (hab : a < b) :
    mmToPoints mm = mm * 72 / 25.4 ∧
    mmToPoints 0 = 0 ∧
    mmToPoints a < mmToPoints b ∧
    process_document_to_two_up pages gap_mm = processPt pages (mmToPoints gap_mm) := by
  refine ⟨by unfold mmToPoints MM_TO_PT; ring, by unfold mmToPoints; ring, ?_, rfl⟩
  have hpos : (0 : ℚ) < MM_TO_PT := by unfold MM_TO_PT; norm_num
  exact mul_lt_mul_of_pos_right hab hpos

theorem mm_to_points_contract_witness :
    mmToPoints 2 = 2 * 72 / 25.4 ∧
    mmToPoints 0 = 0 ∧
    mmToPoints 0 < mmToPoints 1 ∧
    process_document_to_two_up [⟨210, 297⟩] 3 =
      processPt [⟨210, 297⟩] (mmToPoints 3) :=
  mm_to_points_contract 2 0 1 [⟨210, 297⟩] 3 (by norm_num)

/-- C10: the kernel does not enforce `gapMm ≥ 0`: for a negative gap it
applies the same formulas, the converted gap is negative, the right copy
starts left of the left copy's right edge (the copies overlap), the output
page is narrower than twice the rotated width, and every page of the
document still uses the identical converted gap value. -/
theorem negative_gap_behavior (w h gap_mm : ℚ) (pages : List PointSize)
    (hg : gap_mm < 0) :
    mmToPoints gap_mm < 0 ∧
    (twoUpPlacement ⟨w, h⟩ (mmToPoints gap_mm)).rightRect.x0 <
      (twoUpPlacement ⟨w, h⟩ (mmToPoints gap_mm)).leftRect.x1 ∧
    (twoUpPlacement ⟨w, h⟩ (mmToPoints gap_mm)).outW < 2 * h ∧
    ∀ i : ℕ, (process_document_to_two_up pages gap_mm)[i]? =
      (pages[i]?).map fun size => twoUpOutPage i size (mmToPoints gap_mm) := by
  have hneg : mmToPoints gap_mm < 0 := by
    have hpos : (0 : ℚ) < MM_TO_PT := by unfold MM_TO_PT; norm_num
    unfold mmToPoints
    exact mul_neg_of_neg_of_pos hg hpos
  refine ⟨hneg, ?_, ?_, process_document_getElem pages gap_mm⟩
  · show h + mmToPoints gap_mm < h
    linarith
  · show h * 2 + mmToPoints gap_mm < 2 * h
    linarith

theorem negative_gap_behavior_witness :
    mmToPoints (-1) < 0 ∧
    (twoUpPlacement ⟨100, 100⟩ (mmToPoints (-1))).rightRect.x0 <
      (twoUpPlacement ⟨100, 100⟩ (mmToPoints (-1))).leftRect.x1 ∧
    (twoUpPlacement ⟨100, 100⟩ (mmToPoints (-1))).outW < 2 * 100 ∧
    ∀ i : ℕ, (process_document_to_two_up [⟨100, 100⟩] (-1))[i]? =
      (([⟨100, 100⟩] : List PointSize)[i]?).map
        fun size => twoUpOutPage i size (mmToPoints (-1)) :=
  negative_gap_behavior 100 100 (-1) [⟨100, 100⟩] (by norm_num)

/-- A source page together with its content handle; reading the content
either succeeds with an opaque value or fails, modelling the `ContentError`
a `show_pdf_page` call (src/app.py lines 100–101) can raise for an
unreadable page. -/
structure SourcePageE where
  size : PointSize
  content : Except String Unit
deriving Repr

/-- The loop of `process_document_to_two_up` with fallible page content: a
raised `ContentError` propagates out of the loop at once (Python exception
semantics), so no output document is produced. -/
def processAux (gap_pt : ℚ) : List SourcePageE → ℕ → Except String (List OutPage)
  | [], _ => Except.ok []
  | p :: rest, pno =>
    match p.content with
    | Except.error e => Except.error e
    | Except.ok _ =>
      match processAux gap_pt rest (pno + 1) with
      | Except.error e => Except.error e
      | Except.ok tail => Except.ok (twoUpOutPage pno p.size gap_pt :: tail)

/-- `process_document_to_two_up` over fallible pages. -/
def process_document_fallible (pages : List SourcePageE) (gap_mm : ℚ) :
    Except String (List OutPage) :=
  processAux (gap_mm * MM_TO_PT) pages 0

/-- The upload handler (src/app.py lines 108–147): the whole
load-then-process pipeline sits in one `try`, and any exception is caught
by the single `except` which shows an error message instead of a download —
so the caller receives either a complete output document or an error,
never a partial document. -/
def upload_handler (loadRes : Except String (List SourcePageE)) (gap_mm : ℚ) :
    Except String (List OutPage) :=
  match loadRes with
  | Except.error e => Except.error e
  | Except.ok pages => process_document_fallible pages gap_mm

theorem processAux_error_of_mem (gap_pt : ℚ) (pages : List SourcePageE)
    (n : ℕ) (p : SourcePageE) (e : String) (hp : p ∈ pages)
    (he : p.content = Except.error e) :
    ∃ e2, processAux gap_pt pages n = Except.error e2 := by
  induction pages generalizing n with
  | nil => cases hp
  | cons q rest ih =>
    rcases List.mem_cons.mp hp with rfl | hmem
    · exact ⟨e, by unfold processAux; rw [he]⟩
    · unfold processAux
      match hq : q.content with
      | Except.error e3 => exact ⟨e3, rfl⟩
      | Except.ok u =>
        obtain ⟨e2, h2⟩ := ih (n + 1) hmem
        rw [h2]
        exact ⟨e2, rfl⟩

theorem processAux_ok (gap_pt : ℚ) (pages : List SourcePageE) (n : ℕ)
    (out : List OutPage) (hok : processAux gap_pt pages n = Except.ok out) :
    out.length = pages.length ∧ ∀ p ∈ pages, ∃ u, p.content = Except.ok u := by
  induction pages generalizing n out with
  | nil =>
    unfold processAux at hok
    cases hok
    exact ⟨rfl, by intro p hp; cases hp⟩
  | cons q rest ih =>
    unfold processAux at hok
    match hq : q.content with
    | Except.error e => rw [hq] at hok; cases hok
    | Except.ok u =>
      rw [hq] at hok
      match htail : processAux gap_pt rest (n + 1) with
      | Except.error e => rw [htail] at hok; cases hok
      | Except.ok tail =>
        rw [htail] at hok
        cases hok
        obtain ⟨hlen, hall⟩ := ih (n + 1) tail htail
        refine ⟨by simpa using hlen, ?_⟩
        intro p hp
        rcases List.mem_cons.mp hp with rfl | hmem
        · exact ⟨u, hq⟩
        · exact hall p hmem

/-- C8: the conversion is all-or-nothing per invocation — a loader error or
any page's content error yields an error result (no partial output document
and no successfully processed pages are surfaced), and a successful result
covers every source page. -/
theorem upload_all_or_nothing (loadRes : Except String (List SourcePageE))
    (gap_mm : ℚ) :
    ((∃ e, loadRes = Except.error e) ∨
        (∃ pages p, loadRes = Except.ok pages ∧ p ∈ pages ∧
          ∃ e, p.content = Except.error e) →
      ∃ e2, upload_handler loadRes gap_mm = Except.error e2) ∧
    (∀ pages out, loadRes = Except.ok pages →
      upload_handler loadRes gap_mm = Except.ok out →
      out.length = pages.length ∧ ∀ p ∈ pages, ∃ u, p.content = Except.ok u) := by
  constructor
  · rintro (⟨e, rfl⟩ | ⟨pages, p, rfl, hp, e, he⟩)
    · exact ⟨e, rfl⟩
    · exact processAux_error_of_mem (gap_mm * MM_TO_PT) pages 0 p e hp he
  · rintro pages out rfl hok
    exact processAux_ok (gap_mm * MM_TO_PT) pages 0 out hok

theorem upload_all_or_nothing_witness :
    ∃ e2, upload_handler
      (Except.ok [⟨⟨10, 10⟩, Except.ok ()⟩, ⟨⟨20, 20⟩, Except.error "bad page"⟩,
        ⟨⟨30, 30⟩, Except.ok ()⟩]) 3 = Except.error e2 :=
  (upload_all_or_nothing
      (Except.ok [⟨⟨10, 10⟩, Except.ok ()⟩, ⟨⟨20, 20⟩, Except.error "bad page"⟩,
        ⟨⟨30, 30⟩, Except.ok ()⟩]) 3).1
    (Or.inr ⟨_, ⟨⟨20, 20⟩, Except.error "bad page"⟩, rfl, by simp, "bad page", rfl⟩)

/-- Modelled from the spec: the pixel-to-point normalization performed by the
external PyMuPDF calls in `_image_file_to_pdf_bytes` (src/app.py lines
30–41) is library code, absent from this repository; per the spec, "Images
are normalized into a one-page document using a fixed 1-pixel : 1-point
mapping", so an image of `pixelW × pixelH` pixels becomes a one-page
document of `pixelW × pixelH` points. -/
def image_file_to_document (pixelW pixelH : ℕ) : List PointSize :=
  [⟨(pixelW : ℚ), (pixelH : ℚ)⟩]

/-- `_open_as_pdf` (src/app.py lines 43–62): dispatch on the lowercased
filename suffix — `.pdf` opens directly; `.png`/`.jpg`/`.jpeg` go through
the image conversion; otherwise PDF is attempted first with an image
fallback.  Filenames are lists of characters; the already-decoded PDF pages
and the image's pixel dimensions stand for the opaque byte-level inputs. -/
def open_as_pdf (pdfPages : List PointSize) (pixelW pixelH : ℕ)
    (fallbackPdfOk : Bool) (filename : List Char) : List PointSize :=
  let name_lower := filename.map Char.toLower
  if List.isSuffixOf ".pdf".toList name_lower then pdfPages
  else if List.isSuffixOf ".png".toList name_lower
      || List.isSuffixOf ".jpg".toList name_lower
      || List.isSuffixOf ".jpeg".toList name_lower then
    image_file_to_document pixelW pixelH
  else if fallbackPdfOk then pdfPages
  else image_file_to_document pixelW pixelH

/-- C9: loading a PNG or JPG input (a filename whose lowercased form ends in
`.png`, `.jpg` or `.jpeg`, so that the `.pdf` branch is not taken) produces
a document of exactly one page whose point dimensions equal the image's
pixel dimensions (1 pixel = 1 point). -/
theorem image_loads_one_page (pdfPages : List PointSize) (pixelW pixelH : ℕ)
    (fb : Bool) (filename : List Char)
    (himg : List.isSuffixOf ".png".toList (filename.map Char.toLower) = true
      ∨ List.isSuffixOf ".jpg".toList (filename.map Char.toLower) = true
      ∨ List.isSuffixOf ".jpeg".toList (filename.map Char.toLower) = true)
    (hnotpdf : List.isSuffixOf ".pdf".toList (filename.map Char.toLower) = false) :
    open_as_pdf pdfPages pixelW pixelH fb filename =
      [⟨(pixelW : ℚ), (pixelH : ℚ)⟩] ∧
    (open_as_pdf pdfPages pixelW pixelH fb filename).length = 1 := by
  unfold open_as_pdf image_file_to_document
  rcases himg with hsfx | hsfx | hsfx <;>
    simp only [hsfx, hnotpdf, Bool.true_or, Bool.or_true, Bool.false_eq_true,
      if_false, if_true, List.length_cons, List.length_nil] <;>
    (repeat' apply And.intro) <;>
    trivial

theorem image_loads_one_page_witness :
    open_as_pdf [⟨612, 792⟩] 300 200 true "label.png".toList =
      [⟨(300 : ℚ), 200⟩] ∧
    (open_as_pdf [⟨612, 792⟩] 300 200 true "label.png".toList).length = 1 :=
  image_loads_one_page [⟨612, 792⟩] 300 200 true "label.png".toList
    (Or.inl (by decide)) (by decide)

end TwoUp
